import Mathlib

/-!
Shallow embedding of the "Couples-Therapy" multiplayer Memory game.

The client code is embedded from the repository sources
(src/public/scripts.js, src/public/scene.js, src/public/animations.js and the
unnamed client modules part_001, part_002, part_004).  The server-side game
engine (Board Generator, Game State redaction, Turn Resolver) is described by
the specification but its source is not part of the checked tree; those
definitions are modelled from the specification and say so in their doc
comments.

DOM effects are modelled by explicit state values: an element's rendered
content becomes a record, `document.body` appends become list appends, and
`setTimeout` becomes a pending (delay, action) entry that a separate step
function fires.
-/

/-- A card as carried in `GAME_STATE` payloads and held by the client;
`value = none` models a JS `null`/absent value field. -/
structure Card where
  id : Nat
  value : Option String
  isFaceUp : Bool
  isMatched : Bool
deriving Repr, DecidableEq

/-- A player entry of a `GAME_STATE` payload. -/
structure Player where
  color : String
  score : Int
deriving Repr, DecidableEq

/-- A `GAME_STATE` payload as consumed by the client handlers. -/
structure GameState where
  gameId : String
  players : List Player
  activePlayerIndex : Nat
  cards : List Card
  status : String
deriving Repr, DecidableEq

/-- JS truthiness of a nullable string: `null` and `""` are falsy, every other
string is truthy. -/
def jsTruthy : Option String → Bool
  | none => false
  | some s => s != ""

/-- The observable result of rendering one card in scripts.js `renderCards`:
the element's text content and its class list. -/
structure RenderedCard where
  text : String
  classes : List String
deriving Repr, DecidableEq

/-- scripts.js `renderCards`, per card (lines 72-87): the element gets class
"card"; if `card.isFaceUp && card.value` the value is shown and class "faceup"
added, otherwise the text is "?"; matched cards get class "matched". -/
def renderCard (card : Card) : RenderedCard :=
  if card.isFaceUp && jsTruthy card.value then
    { text := card.value.getD "",
      classes := ["card", "faceup"] ++ (if card.isMatched then ["matched"] else []) }
  else
    { text := "?",
      classes := ["card"] ++ (if card.isMatched then ["matched"] else []) }

/-- scripts.js `renderCards`: the card grid is cleared and rebuilt as one
rendered element per card, in order. -/
def renderCards (gameState : GameState) : List RenderedCard :=
  gameState.cards.map renderCard

/-- The information about a card that is observable without looking at
face-down values: id, orientation, matched flag, and the value only when the
card is face up.  Two states that agree card-wise on this data differ at most
in values of face-down cards. -/
structure CardView where
  id : Nat
  isFaceUp : Bool
  isMatched : Bool
  shown : Option String
deriving Repr, DecidableEq

/-- Projection of a card to its observable part. -/
def cardObservable (c : Card) : CardView :=
  { id := c.id, isFaceUp := c.isFaceUp, isMatched := c.isMatched,
    shown := if c.isFaceUp then c.value else none }

/-- Rendering factored through the observable part of a card. -/
def renderOfView (v : CardView) : RenderedCard :=
  if v.isFaceUp && jsTruthy v.shown then
    { text := v.shown.getD "",
      classes := ["card", "faceup"] ++ (if v.isMatched then ["matched"] else []) }
  else
    { text := "?",
      classes := ["card"] ++ (if v.isMatched then ["matched"] else []) }

/-- Modelled from the spec: the server-side Game State redacted view (spec
§4.2 and §6); the server source is not under src/.  Any card with
`isFaceUp = false` has its `value` field omitted/nulled in the payload. -/
def redactCard (c : Card) : Card :=
  if c.isFaceUp then c else { c with value := none }

/-- Modelled from the spec: the redacted snapshot sent as a `GAME_STATE`
payload applies `redactCard` to every card; the server source is not under
src/. -/
def redactState (g : GameState) : GameState :=
  { g with cards := g.cards.map redactCard }

/-- JS `Math.max(...xs)` on a non-empty argument list.  On the empty list JS
yields `-Infinity`, which has no `Int` counterpart; the empty case is mapped
to 0 and is never used under the non-empty hypotheses below. -/
def jsMaxList : List Int → Int
  | [] => 0
  | x :: xs => xs.foldl max x

/-- scripts.js / part_002 `getWinners`: the maximum score over all players and
the players whose score equals it. -/
def getWinners (gameState : GameState) : List Player × Int :=
  let maxScore := jsMaxList (gameState.players.map (fun p => p.score))
  let winners := gameState.players.filter (fun p => p.score == maxScore)
  (winners, maxScore)

/-- scripts.js `renderCards` card click handler (lines 90-104): a
`FLIP_CARD(card.id)` request is emitted only when the captured card is not
matched, a game state is held, and its status is "playing"; otherwise nothing
is sent. -/
def cardClickAction (card : Card) (currentGameState : Option GameState) : Option Nat :=
  match currentGameState with
  | some gs => if !card.isMatched && (gs.status == "playing") then some card.id else none
  | none => none

/-- The double-quote character (escaped in source literals). -/
def quoteChar : Char := Char.ofNat 34

/-- The apostrophe character (escaped in source literals). -/
def apostropheChar : Char := Char.ofNat 39

/-- scripts.js / part_002 `escapeHTML`, per character: the five characters
matched by the regex `[&<>"']` are replaced by their HTML entities, every
other character is kept. -/
def escapeChar (c : Char) : List Char :=
  if c = '&' then "&amp;".data
  else if c = '<' then "&lt;".data
  else if c = '>' then "&gt;".data
  else if c = quoteChar then "&quot;".data
  else if c = apostropheChar then "&#39;".data
  else [c]

/-- scripts.js / part_002 `escapeHTML`: `String.replace` with a global
single-character regex is the concatenation of the per-character images. -/
def escapeHTML (s : String) : String :=
  String.mk (s.data.flatMap escapeChar)

/-- An action scheduled with `setTimeout` by the embedded client handlers. -/
inductive TimeoutAction where
  | clearErrorBox
deriving Repr, DecidableEq

/-- The client page state touched by the scripts.js handlers: the stored
`currentGameState`, the error box markup, the rendered card grid, and the
pending `setTimeout` callbacks as (delay in ms, action) pairs. -/
structure ClientState where
  currentGameState : Option GameState
  errorBoxHTML : String
  cardGrid : List RenderedCard
  pendingTimeouts : List (Nat × TimeoutAction)
deriving Repr, DecidableEq

/-- The markup scripts.js `gameClient.onError` writes into the error box. -/
def errorBoxMarkup (errorMessage : String) : String :=
  "<div class=\"error\">❌ " ++ errorMessage ++ "</div>"

/-- scripts.js `gameClient.onError` (lines 36-44): write the error markup into
the error box and schedule clearing it 3000 ms later; nothing else is
touched. -/
def onError (st : ClientState) (errorMessage : String) : ClientState :=
  { st with
    errorBoxHTML := errorBoxMarkup errorMessage,
    pendingTimeouts := st.pendingTimeouts ++ [(3000, TimeoutAction.clearErrorBox)] }

/-- Firing a scheduled timeout action: the error-box clear sets its markup to
the empty string. -/
def fireTimeout (st : ClientState) : TimeoutAction → ClientState
  | TimeoutAction.clearErrorBox => { st with errorBoxHTML := "" }

/-- A card object of the Three.js scene (the scene.js `cards` array).  Mesh,
mixer and texture data play no role in the id bookkeeping and are omitted. -/
structure SceneCard where
  id : Nat
  value : Option String
  isFaceUp : Bool
  isMatched : Bool
deriving Repr, DecidableEq

/-- scene.js `createCardInstance`: returns null when the FBX template failed
to load, otherwise a fresh face-down, unmatched card object. -/
def createCardInstance (templateLoaded : Bool) (cardId : Nat) (value : Option String) :
    Option SceneCard :=
  if templateLoaded then
    some { id := cardId, value := value, isFaceUp := false, isMatched := false }
  else none

/-- scene.js `updateFromGameState`, card-list reconciliation (lines 559-596):
remove every scene card whose id is absent from the new state, create an
instance for every state card with no scene card of the same id (checking the
list as it grows, as the JS forEach does against the mutating array), then a
second removal pass drops any card whose id is not in the state. -/
def updateSceneCards (templateLoaded : Bool) (cards : List SceneCard)
    (stateCards : List Card) : List SceneCard :=
  let newGameCardIds := stateCards.map (fun c => c.id)
  let kept := cards.filter (fun c => newGameCardIds.contains c.id)
  let afterCreate := stateCards.foldl (fun acc c =>
    if (acc.find? (fun x => x.id == c.id)).isSome then acc
    else
      match createCardInstance templateLoaded c.id c.value with
      | some inst => acc ++ [inst]
      | none => acc) kept
  afterCreate.filter (fun c => stateCards.any (fun g => g.id == c.id))

/-- The creation step of `updateSceneCards` with the FBX template loaded:
append a fresh instance unless a scene card with the same id is already
present. -/
def addMissingCard (acc : List SceneCard) (c : Card) : List SceneCard :=
  if (acc.find? (fun x => x.id == c.id)).isSome then acc
  else acc ++ [{ id := c.id, value := c.value, isFaceUp := false, isMatched := false }]

/-- The state of the win-popup logic: the module-level
`hasShownWinPopupForGameId` variable and the win overlays appended to
`document.body`, each recorded by the gameId it was created for. -/
structure PopupState where
  hasShownWinPopupForGameId : Option String
  winOverlays : List String
deriving Repr, DecidableEq

/-- scripts.js / part_002 `showWinPopup`: return unchanged when
`hasShownWinPopupForGameId` equals the state's gameId; otherwise record the
gameId and append one win overlay (the overlay's DOM content is abstracted to
the gameId it was created for). -/
def showWinPopup (st : PopupState) (gameState : GameState) : PopupState :=
  if st.hasShownWinPopupForGameId == some gameState.gameId then st
  else
    { hasShownWinPopupForGameId := some gameState.gameId,
      winOverlays := st.winOverlays ++ [gameState.gameId] }

/-- A confetti piece of the fullscreen confetti screen, tagged by which loop
created it. -/
inductive ConfettiPiece where
  | burst
  | loop
deriving Repr, DecidableEq

namespace Animator

/-- part_001 / part_004 `launchFullscreenConfetti` (burst + loop variant): if
a ".confetti-screen" element already exists the call returns with the
document unchanged; otherwise one screen is appended holding
`Math.floor(pieces * 0.4)` burst pieces (floor division `pieces * 2 / 5`
here) followed by the remaining loop pieces.  The document is modelled as the
list of existing confetti screens, each the list of its child pieces. -/
def launchFullscreenConfetti (confettiScreens : List (List ConfettiPiece))
    (pieces : Nat) : List (List ConfettiPiece) :=
  if confettiScreens ≠ [] then confettiScreens
  else
    let burstPieces := pieces * 2 / 5
    let loopPieces := pieces - burstPieces
    confettiScreens ++
      [List.replicate burstPieces ConfettiPiece.burst ++
        List.replicate loopPieces ConfettiPiece.loop]

end Animator

namespace Animations

/-- src/public/animations.js `launchFullscreenConfetti` (single-loop variant):
if a ".confetti-screen" element already exists the call returns with the
document unchanged; otherwise one screen with exactly `pieces` children is
appended. -/
def launchFullscreenConfetti (confettiScreens : List (List ConfettiPiece))
    (pieces : Nat) : List (List ConfettiPiece) :=
  if confettiScreens ≠ [] then confettiScreens
  else confettiScreens ++ [List.replicate pieces ConfettiPiece.loop]

end Animations

/-- Modelled from the spec: the server Game entity (spec §3); the server
source is not under src/. -/
structure SrvGame where
  gameId : String
  cards : List Card
  players : List Player
  activePlayerIndex : Nat
  flippedCardIds : List Nat
  status : String
deriving Repr, DecidableEq

/-- Outcome of the Turn Resolver FLIP transition.  `mismatch g` is the
`resolving` state whose delayed resolution is `resolveNoMatch g`. -/
inductive FlipResult where
  | rejected (err : String)
  | flippedOne (g : SrvGame)
  | matchedPair (g : SrvGame)
  | wonGame (g : SrvGame)
  | mismatch (g : SrvGame)
deriving Repr, DecidableEq

/-- Modelled from the spec: the Turn Resolver `FLIP(cardId)` transition (spec
§4.3); the server source is not under src/.  Rejects out-of-turn, unknown,
matched, already-face-up and locked-board flips; otherwise turns the card
face up and, on a second flip, compares the two values: equal values mark the
pair matched and score the active player, different values move the game to
`resolving`, to be finished by `resolveNoMatch` after the reveal delay. -/
def flipCard (g : SrvGame) (requester : Nat) (cardId : Nat) : FlipResult :=
  if g.status ≠ "playing" then FlipResult.rejected "InvalidMoveError"
  else if requester ≠ g.activePlayerIndex then FlipResult.rejected "InvalidMoveError"
  else
    match g.cards.find? (fun c => c.id == cardId) with
    | none => FlipResult.rejected "InvalidMoveError"
    | some card =>
      if card.isMatched then FlipResult.rejected "InvalidMoveError"
      else if card.isFaceUp then FlipResult.rejected "InvalidMoveError"
      else if 2 ≤ g.flippedCardIds.length then FlipResult.rejected "InvalidMoveError"
      else
        let cards1 := g.cards.map (fun c =>
          if c.id == cardId then { c with isFaceUp := true } else c)
        match g.flippedCardIds ++ [cardId] with
        | [a] => FlipResult.flippedOne { g with cards := cards1, flippedCardIds := [a] }
        | [a, b] =>
          match cards1.find? (fun c => c.id == a), cards1.find? (fun c => c.id == b) with
          | some c1, some c2 =>
            if c1.value == c2.value then
              let cards2 := cards1.map (fun c =>
                if c.id == a || c.id == b then { c with isMatched := true } else c)
              let players2 := g.players.enum.map (fun q =>
                if q.1 == g.activePlayerIndex then { q.2 with score := q.2.score + 1 } else q.2)
              let g2 := { g with cards := cards2, players := players2, flippedCardIds := ([] : List Nat) }
              if cards2.all (fun c => c.isMatched) then
                FlipResult.wonGame { g2 with status := "won" }
              else
                FlipResult.matchedPair { g2 with status := "playing" }
            else
              FlipResult.mismatch { g with cards := cards1, flippedCardIds := [a, b], status := "resolving" }
          | _, _ => FlipResult.rejected "InvalidMoveError"
        | _ => FlipResult.rejected "InvalidMoveError"

/-- Modelled from the spec: no-match resolution after the server-scheduled
reveal delay (spec §4.3 step 4, no-match bullet); the server source is not
under src/.  Both flipped cards return face down, `flippedCardIds` is
cleared, the active player index advances by one modulo the player count, and
the game returns to `playing`. -/
def resolveNoMatch (g : SrvGame) : SrvGame :=
  { g with
    cards := g.cards.map (fun c =>
      if g.flippedCardIds.contains c.id then { c with isFaceUp := false } else c),
    flippedCardIds := [],
    activePlayerIndex := (g.activePlayerIndex + 1) % g.players.length,
    status := "playing" }

/-- Modelled from the spec: the Board Generator `generate(pairCount,
symbolSet)` (spec §4.1); the server source is not under src/.  Requires
`pairCount ≤ |symbolSet|` (else `ConfigurationError`), takes `pairCount`
distinct symbols, duplicates each into two cards, assigns sequential unique
ids, and applies the shuffle drawn from the injected random source, modelled
as the `shuffle` argument. -/
def generate (shuffle : List Card → List Card) (pairCount : Nat)
    (symbolSet : List String) : Except String (List Card) :=
  if pairCount ≤ symbolSet.length then
    let symbols := symbolSet.take pairCount
    let values := symbols.flatMap (fun s => [s, s])
    let base := values.enum.map (fun q =>
      ({ id := q.1, value := some q.2, isFaceUp := false, isMatched := false } : Card))
    Except.ok (shuffle base)
  else Except.error "ConfigurationError"

/-! ### Helper lemmas -/

/-- Every character produced by `escapeChar` is neither `<` nor `>` nor a
quote nor an apostrophe (the entity for `&` reuses `&`, which is allowed). -/
theorem escapeChar_no_raw (a c : Char) (hc : c ∈ escapeChar a) :
    c ≠ '<' ∧ c ≠ '>' ∧ c ≠ quoteChar ∧ c ≠ apostropheChar := by
  unfold escapeChar at hc
  split at hc
  · have e : "&amp;".data = ['&', 'a', 'm', 'p', ';'] := rfl
    rw [e] at hc
    fin_cases hc <;> exact ⟨by decide, by decide, by decide, by decide⟩
  split at hc
  · have e : "&lt;".data = ['&', 'l', 't', ';'] := rfl
    rw [e] at hc
    fin_cases hc <;> exact ⟨by decide, by decide, by decide, by decide⟩
  split at hc
  · have e : "&gt;".data = ['&', 'g', 't', ';'] := rfl
    rw [e] at hc
    fin_cases hc <;> exact ⟨by decide, by decide, by decide, by decide⟩
  split at hc
  · have e : "&quot;".data = ['&', 'q', 'u', 'o', 't', ';'] := rfl
    rw [e] at hc
    fin_cases hc <;> exact ⟨by decide, by decide, by decide, by decide⟩
  split at hc
  · have e : "&#39;".data = ['&', '#', '3', '9', ';'] := rfl
    rw [e] at hc
    fin_cases hc <;> exact ⟨by decide, by decide, by decide, by decide⟩
  next h1 h2 h3 h4 h5 =>
    rw [List.mem_singleton] at hc
    subst hc
    exact ⟨h2, h3, h4, h5⟩

/-- The seed of a `foldl max` is below the result. -/
theorem le_foldl_max (xs : List Int) (a : Int) : a ≤ xs.foldl max a := by
  induction xs generalizing a with
  | nil => exact le_refl a
  | cons x xs ih =>
    rw [List.foldl_cons]
    exact le_trans (le_max_left a x) (ih (max a x))

/-- Every list element is below the result of a `foldl max`. -/
theorem mem_le_foldl_max (xs : List Int) (a y : Int) (hy : y ∈ xs) :
    y ≤ xs.foldl max a := by
  induction xs generalizing a with
  | nil => cases hy
  | cons x xs ih =>
    rw [List.foldl_cons]
    rcases List.mem_cons.mp hy with rfl | h
    · exact le_trans (le_max_right a y) (le_foldl_max xs (max a y))
    · exact ih (max a x) h

/-- A `foldl max` result is the seed or one of the list elements. -/
theorem foldl_max_mem (xs : List Int) (a : Int) :
    xs.foldl max a = a ∨ xs.foldl max a ∈ xs := by
  induction xs generalizing a with
  | nil => exact Or.inl rfl
  | cons x xs ih =>
    rw [List.foldl_cons]
    rcases ih (max a x) with h | h
    · rcases le_total a x with hax | hxa
      · right
        rw [h, max_eq_right hax]
        exact List.mem_cons_self x xs
      · left
        rw [h, max_eq_left hxa]
    · right
      exact List.mem_cons_of_mem x h

/-- `jsMaxList` on a non-empty list returns one of its elements. -/
theorem jsMaxList_mem (x : Int) (xs : List Int) : jsMaxList (x :: xs) ∈ x :: xs := by
  simp only [jsMaxList]
  rcases foldl_max_mem xs x with h | h
  · rw [h]
    exact List.mem_cons_self x xs
  · exact List.mem_cons_of_mem x h

/-- `jsMaxList` on a non-empty list bounds every element. -/
theorem jsMaxList_le (x : Int) (xs : List Int) (y : Int) (hy : y ∈ x :: xs) :
    y ≤ jsMaxList (x :: xs) := by
  simp only [jsMaxList]
  rcases List.mem_cons.mp hy with rfl | h
  · exact le_foldl_max xs y
  · exact mem_le_foldl_max xs x y h

/-! ### Claim theorems -/

/-- C8: `escapeHTML` maps each of the characters `&`, `<`, `>`, `"`, `'` to
its HTML entity, leaves every other character unchanged, and its result never
contains a raw `<`, `>`, `"` or `'`. -/
theorem C8_escapeHTML_escaping :
    (escapeChar '&' = "&amp;".data ∧ escapeChar '<' = "&lt;".data ∧
      escapeChar '>' = "&gt;".data ∧ escapeChar quoteChar = "&quot;".data ∧
      escapeChar apostropheChar = "&#39;".data) ∧
    (∀ c : Char, c ≠ '&' → c ≠ '<' → c ≠ '>' → c ≠ quoteChar → c ≠ apostropheChar →
      escapeChar c = [c]) ∧
    (∀ s : String, (escapeHTML s).data = s.data.flatMap escapeChar) ∧
    (∀ s : String, ∀ c ∈ (escapeHTML s).data,
      c ≠ '<' ∧ c ≠ '>' ∧ c ≠ quoteChar ∧ c ≠ apostropheChar) := by
  refine ⟨⟨rfl, rfl, rfl, rfl, rfl⟩, ?_, fun s => rfl, ?_⟩
  · intro c h1 h2 h3 h4 h5
    unfold escapeChar
    rw [if_neg h1, if_neg h2, if_neg h3, if_neg h4, if_neg h5]
  · intro s c hc
    have hc2 : c ∈ s.data.flatMap escapeChar := hc
    obtain ⟨a, _, hca⟩ := List.mem_flatMap.mp hc2
    exact escapeChar_no_raw a c hca

/-- C8 witness: an unlisted character passes through unchanged, and a
character of an escaped string is not a raw special character. -/
theorem C8_escapeHTML_escaping_witness :
    escapeChar 'x' = ['x'] ∧
    ('a' ≠ '<' ∧ 'a' ≠ '>' ∧ 'a' ≠ quoteChar ∧ 'a' ≠ apostropheChar) := by
  constructor
  · exact C8_escapeHTML_escaping.2.1 'x' (by decide) (by decide) (by decide)
      (by decide) (by decide)
  · exact C8_escapeHTML_escaping.2.2.2 "a<b" 'a' (by decide)

/-- C5: the card click handler emits a flip request only when the clicked
card is not matched, a game state is held, and its status is "playing"; the
request carries the clicked card's id. -/
theorem C5_client_flip_guard (card : Card) (currentGameState : Option GameState)
    (req : Nat) (h : cardClickAction card currentGameState = some req) :
    req = card.id ∧ card.isMatched = false ∧
    ∃ gs, currentGameState = some gs ∧ gs.status = "playing" := by
  cases currentGameState with
  | none => simp [cardClickAction] at h
  | some gs =>
    simp only [cardClickAction] at h
    split at h
    next hcond =>
      have hc : card.isMatched = false ∧ gs.status = "playing" := by simpa using hcond
      injection h with hreq
      exact ⟨hreq.symm, hc.1, gs, rfl, hc.2⟩
    next => simp at h

/-- C5 witness: a concrete unmatched card with a held "playing" state whose
click emits its id. -/
theorem C5_client_flip_guard_witness :
    (3 : Nat) = (⟨3, some "A", false, false⟩ : Card).id ∧
    (⟨3, some "A", false, false⟩ : Card).isMatched = false ∧
    ∃ gs, (some ⟨"g1", [⟨"red", 0⟩], 0, [], "playing"⟩ : Option GameState) = some gs ∧
      gs.status = "playing" :=
  C5_client_flip_guard ⟨3, some "A", false, false⟩
    (some ⟨"g1", [⟨"red", 0⟩], 0, [], "playing"⟩) 3 (by decide)

/-- C6: the error handler writes the message into the error box, schedules
its removal after 3000 ms, and leaves the stored game state and the rendered
card grid unchanged; firing the scheduled clear empties the error box and
again leaves game state and grid unchanged. -/
theorem C6_transient_error_display (st : ClientState) (errorMessage : String) :
    (onError st errorMessage).errorBoxHTML = errorBoxMarkup errorMessage ∧
    (3000, TimeoutAction.clearErrorBox) ∈ (onError st errorMessage).pendingTimeouts ∧
    (onError st errorMessage).currentGameState = st.currentGameState ∧
    (onError st errorMessage).cardGrid = st.cardGrid ∧
    (fireTimeout (onError st errorMessage) TimeoutAction.clearErrorBox).errorBoxHTML = "" ∧
    (fireTimeout (onError st errorMessage) TimeoutAction.clearErrorBox).currentGameState =
      st.currentGameState ∧
    (fireTimeout (onError st errorMessage) TimeoutAction.clearErrorBox).cardGrid =
      st.cardGrid := by
  refine ⟨rfl, ?_, rfl, rfl, rfl, rfl, rfl⟩
  simp [onError]

/-- C2: for a non-empty players list, `getWinners` returns the maximum score
over all players together with exactly the players achieving it (ties give
several winners). -/
theorem C2_getWinners_argmax (gameState : GameState) (h : gameState.players ≠ []) :
    (∃ p ∈ gameState.players, p.score = (getWinners gameState).2) ∧
    (∀ p ∈ gameState.players, p.score ≤ (getWinners gameState).2) ∧
    (∀ p : Player, p ∈ (getWinners gameState).1 ↔
      p ∈ gameState.players ∧ p.score = (getWinners gameState).2) := by
  have h2 : (getWinners gameState).2 =
      jsMaxList (gameState.players.map (fun p => p.score)) := rfl
  have h1 : (getWinners gameState).1 =
      gameState.players.filter (fun p => p.score == (getWinners gameState).2) := rfl
  obtain ⟨p0, ps, hps⟩ := List.exists_cons_of_ne_nil h
  refine ⟨?_, ?_, ?_⟩
  · have hmem : jsMaxList (gameState.players.map (fun p => p.score)) ∈
        gameState.players.map (fun p => p.score) := by
      rw [hps, List.map_cons]
      exact jsMaxList_mem _ _
    rw [h2]
    obtain ⟨p, hp, hpe⟩ := List.mem_map.mp hmem
    exact ⟨p, hp, hpe⟩
  · intro p hp
    rw [h2, hps, List.map_cons]
    apply jsMaxList_le
    rw [← List.map_cons, ← hps]
    exact List.mem_map_of_mem _ hp
  · intro p
    rw [h1, List.mem_filter]
    constructor
    · rintro ⟨hp, hb⟩
      exact ⟨hp, by simpa using hb⟩
    · rintro ⟨hp, he⟩
      exact ⟨hp, by simpa using he⟩

/-- C2 witness: a three-player state with a tied maximum of 2. -/
theorem C2_getWinners_argmax_witness :
    (∃ p ∈ (⟨"g2", [⟨"red", 2⟩, ⟨"blue", 2⟩, ⟨"green", 1⟩], 0, [], "won"⟩ :
        GameState).players,
      p.score = (getWinners ⟨"g2", [⟨"red", 2⟩, ⟨"blue", 2⟩, ⟨"green", 1⟩], 0, [], "won"⟩).2) ∧
    (∀ p ∈ (⟨"g2", [⟨"red", 2⟩, ⟨"blue", 2⟩, ⟨"green", 1⟩], 0, [], "won"⟩ :
        GameState).players,
      p.score ≤ (getWinners ⟨"g2", [⟨"red", 2⟩, ⟨"blue", 2⟩, ⟨"green", 1⟩], 0, [], "won"⟩).2) ∧
    (∀ p : Player, p ∈ (getWinners ⟨"g2", [⟨"red", 2⟩, ⟨"blue", 2⟩, ⟨"green", 1⟩], 0, [], "won"⟩).1 ↔
      p ∈ (⟨"g2", [⟨"red", 2⟩, ⟨"blue", 2⟩, ⟨"green", 1⟩], 0, [], "won"⟩ :
        GameState).players ∧
      p.score = (getWinners ⟨"g2", [⟨"red", 2⟩, ⟨"blue", 2⟩, ⟨"green", 1⟩], 0, [], "won"⟩).2) :=
  C2_getWinners_argmax ⟨"g2", [⟨"red", 2⟩, ⟨"blue", 2⟩, ⟨"green", 1⟩], 0, [], "won"⟩
    (by decide)

/-- Rendering a card only depends on its observable part. -/
theorem renderCard_eq_renderOfView (c : Card) :
    renderCard c = renderOfView (cardObservable c) := by
  unfold renderCard renderOfView cardObservable
  by_cases h : c.isFaceUp
  · simp [h]
  · simp [h, jsTruthy]

/-- C1: in redacted `GAME_STATE` payloads a card's value is present iff the
card is face up; the renderer displays a value only for a face-up card with a
present value and renders "?" whenever the card is face down or its value is
null; hence the rendered grid is unchanged under any change to the values of
face-down cards (two-run noninterference over `renderCards`). -/
theorem C1_redaction_noninterference :
    (∀ g : GameState, (∀ c ∈ g.cards, c.value.isSome = true) →
      ∀ c ∈ (redactState g).cards, (c.value.isSome = true ↔ c.isFaceUp = true)) ∧
    (∀ c : Card, (renderCard c).text ≠ "?" →
      c.isFaceUp = true ∧ c.value.isSome = true) ∧
    (∀ c : Card, c.isFaceUp = false ∨ c.value = none → (renderCard c).text = "?") ∧
    (∀ g1 g2 : GameState, g1.cards.map cardObservable = g2.cards.map cardObservable →
      renderCards g1 = renderCards g2) := by
  refine ⟨?_, ?_, ?_, ?_⟩
  · intro g hall c hc
    obtain ⟨c0, hc0, rfl⟩ := List.mem_map.mp hc
    unfold redactCard
    by_cases h : c0.isFaceUp
    · simp [h, hall c0 hc0]
    · simp [h]
  · intro c h
    unfold renderCard at h
    split at h
    next hcond =>
      have hc : c.isFaceUp = true ∧ jsTruthy c.value = true := by simpa using hcond
      refine ⟨hc.1, ?_⟩
      cases hv : c.value with
      | none => rw [hv] at hc; simp [jsTruthy] at hc
      | some s => simp
    next => simp at h
  · intro c h
    unfold renderCard
    rcases h with h | h
    · rw [if_neg]
      simp [h]
    · rw [if_neg]
      simp [h, jsTruthy]
  · intro g1 g2 h
    have key : ∀ l : List Card, l.map renderCard = (l.map cardObservable).map renderOfView := by
      intro l
      rw [List.map_map]
      exact List.map_congr_left (fun c _ => renderCard_eq_renderOfView c)
    unfold renderCards
    rw [key, key, h]

/-- C1 witness: two states differing only in the value of a face-down card
render identically; the redacted view of a full state exposes values exactly
on face-up cards. -/
theorem C1_redaction_noninterference_witness :
    renderCards ⟨"g1", [⟨"red", 0⟩], 0,
      [⟨0, some "A", true, false⟩, ⟨1, some "B", false, false⟩], "playing"⟩ =
    renderCards ⟨"g1", [⟨"red", 0⟩], 0,
      [⟨0, some "A", true, false⟩, ⟨1, some "Z", false, false⟩], "playing"⟩ ∧
    (⟨"g1", [⟨"red", 0⟩], 0,
      [⟨0, some "A", true, false⟩, ⟨1, some "B", false, false⟩], "playing"⟩ : GameState) ≠
    ⟨"g1", [⟨"red", 0⟩], 0,
      [⟨0, some "A", true, false⟩, ⟨1, some "Z", false, false⟩], "playing"⟩ := by
  constructor
  · exact C1_redaction_noninterference.2.2.2
      ⟨"g1", [⟨"red", 0⟩], 0,
        [⟨0, some "A", true, false⟩, ⟨1, some "B", false, false⟩], "playing"⟩
      ⟨"g1", [⟨"red", 0⟩], 0,
        [⟨0, some "A", true, false⟩, ⟨1, some "Z", false, false⟩], "playing"⟩
      (by decide)
  · decide

/-- C10: with no confetti screen present, each launch variant appends exactly
one screen whose child count is exactly `pieces` (the burst/loop variant
splits it as `floor(0.4 * pieces)` burst plus the remaining loop pieces);
with a screen already present, the call leaves the document unchanged. -/
theorem C10_confetti_count_exact :
    (∀ pieces : Nat, Animator.launchFullscreenConfetti [] pieces =
      [List.replicate (pieces * 2 / 5) ConfettiPiece.burst ++
        List.replicate (pieces - pieces * 2 / 5) ConfettiPiece.loop]) ∧
    (∀ pieces : Nat,
      (Animator.launchFullscreenConfetti [] pieces).map List.length = [pieces]) ∧
    (∀ (screens : List (List ConfettiPiece)) (pieces : Nat), screens ≠ [] →
      Animator.launchFullscreenConfetti screens pieces = screens) ∧
    (∀ pieces : Nat, Animations.launchFullscreenConfetti [] pieces =
      [List.replicate pieces ConfettiPiece.loop]) ∧
    (∀ pieces : Nat,
      (Animations.launchFullscreenConfetti [] pieces).map List.length = [pieces]) ∧
    (∀ (screens : List (List ConfettiPiece)) (pieces : Nat), screens ≠ [] →
      Animations.launchFullscreenConfetti screens pieces = screens) := by
  refine ⟨?_, ?_, ?_, ?_, ?_, ?_⟩
  · intro pieces
    simp [Animator.launchFullscreenConfetti]
  · intro pieces
    simp [Animator.launchFullscreenConfetti, List.length_append]
    omega
  · intro screens pieces h
    unfold Animator.launchFullscreenConfetti
    rw [if_pos h]
  · intro pieces
    simp [Animations.launchFullscreenConfetti]
  · intro pieces
    simp [Animations.launchFullscreenConfetti]
  · intro screens pieces h
    unfold Animations.launchFullscreenConfetti
    rw [if_pos h]

/-- C10 witness: with a screen already present both variants leave the
document unchanged. -/
theorem C10_confetti_count_exact_witness :
    Animator.launchFullscreenConfetti [[ConfettiPiece.loop]] 7 = [[ConfettiPiece.loop]] ∧
    Animations.launchFullscreenConfetti [[ConfettiPiece.loop]] 7 = [[ConfettiPiece.loop]] :=
  ⟨C10_confetti_count_exact.2.2.1 [[ConfettiPiece.loop]] 7 (by decide),
    C10_confetti_count_exact.2.2.2.2.2 [[ConfettiPiece.loop]] 7 (by decide)⟩

/-- C9 counterexample: `hasShownWinPopupForGameId` only remembers the most
recently shown gameId, so the call sequence g1, g2, g1 creates two overlays
for gameId "g1" — the claim "at most one overlay per distinct gameId over
every call sequence" is false. -/
theorem C9_win_popup_counterexample :
    (([(⟨"g1", [⟨"red", 1⟩], 0, [], "won"⟩ : GameState),
       ⟨"g2", [⟨"red", 1⟩], 0, [], "won"⟩,
       ⟨"g1", [⟨"red", 1⟩], 0, [], "won"⟩].foldl showWinPopup
      ⟨none, []⟩).winOverlays.count "g1") = 2 := by decide

/-- C9 (amended): a call whose gameId equals the most recently shown popup's
gameId returns without creating an overlay or changing any state; each call
creates at most one overlay, and an immediate repeat of a call is a no-op. -/
theorem C9_win_popup_consecutive (st : PopupState) (gameState : GameState) :
    (st.hasShownWinPopupForGameId = some gameState.gameId →
      showWinPopup st gameState = st) ∧
    showWinPopup (showWinPopup st gameState) gameState = showWinPopup st gameState ∧
    (showWinPopup st gameState).winOverlays.length ≤ st.winOverlays.length + 1 := by
  refine ⟨?_, ?_, ?_⟩
  · intro h
    unfold showWinPopup
    rw [if_pos (by simpa using h)]
  · by_cases h : st.hasShownWinPopupForGameId = some gameState.gameId
    · simp [showWinPopup, h]
    · have h1 : showWinPopup st gameState =
          ⟨some gameState.gameId, st.winOverlays ++ [gameState.gameId]⟩ := by
        unfold showWinPopup
        rw [if_neg (by simpa using h)]
      rw [h1]
      simp [showWinPopup]
  · by_cases h : st.hasShownWinPopupForGameId = some gameState.gameId
    · simp [showWinPopup, h]
    · unfold showWinPopup
      rw [if_neg (by simpa using h)]
      simp

/-- C9 witness: a repeated gameId "g1" call on a state that has already shown
"g1" changes nothing. -/
theorem C9_win_popup_consecutive_witness :
    showWinPopup ⟨some "g1", ["g1"]⟩ ⟨"g1", [⟨"red", 1⟩], 0, [], "won"⟩ =
      ⟨some "g1", ["g1"]⟩ :=
  (C9_win_popup_consecutive ⟨some "g1", ["g1"]⟩
    ⟨"g1", [⟨"red", 1⟩], 0, [], "won"⟩).1 (by decide)

/-- With the template loaded, `updateSceneCards` is the filter-create-filter
pipeline over `addMissingCard`. -/
theorem updateSceneCards_true_eq (cards : List SceneCard) (stateCards : List Card) :
    updateSceneCards true cards stateCards =
      (stateCards.foldl addMissingCard
        (cards.filter (fun c => (stateCards.map (fun x => x.id)).contains c.id))).filter
        (fun c => stateCards.any (fun g => g.id == c.id)) := rfl

/-- Ids present in the accumulator survive the creation fold. -/
theorem addMissingCard_foldl_mono (l : List Card) (acc : List SceneCard) (i : Nat)
    (h : i ∈ acc.map (fun c => c.id)) :
    i ∈ (l.foldl addMissingCard acc).map (fun c => c.id) := by
  induction l generalizing acc with
  | nil => exact h
  | cons a l ih =>
    rw [List.foldl_cons]
    apply ih
    unfold addMissingCard
    split
    · exact h
    · rw [List.map_append]
      exact List.mem_append_left _ h

/-- Every processed state card's id appears after the creation fold. -/
theorem addMissingCard_foldl_covers (l : List Card) (acc : List SceneCard) (c : Card)
    (hc : c ∈ l) : c.id ∈ (l.foldl addMissingCard acc).map (fun x => x.id) := by
  induction l generalizing acc with
  | nil => cases hc
  | cons a l ih =>
    rw [List.foldl_cons]
    rcases List.mem_cons.mp hc with rfl | h
    · apply addMissingCard_foldl_mono
      unfold addMissingCard
      split
      next hfind =>
        obtain ⟨x, hx⟩ := Option.isSome_iff_exists.mp hfind
        have hpx := List.find?_some hx
        have hxmem : x ∈ acc := List.mem_of_find?_eq_some hx
        have : x.id = c.id := by simpa using hpx
        rw [← this]
        exact List.mem_map_of_mem _ hxmem
      · rw [List.map_append]
        exact List.mem_append_right _ (by simp)
    · exact ih _ h

/-- C7: with the card template loaded, after `updateFromGameState` the set of
card ids in the scene equals exactly the set of ids in the new game state;
stale cards from a previous board are gone. -/
theorem C7_scene_card_sync (cards : List SceneCard) (stateCards : List Card) (i : Nat) :
    i ∈ (updateSceneCards true cards stateCards).map (fun c => c.id) ↔
      i ∈ stateCards.map (fun c => c.id) := by
  rw [updateSceneCards_true_eq]
  constructor
  · intro h
    obtain ⟨x, hx, rfl⟩ := List.mem_map.mp h
    obtain ⟨-, hpred⟩ := List.mem_filter.mp hx
    obtain ⟨g, hg, hgid⟩ := List.any_eq_true.mp hpred
    have : g.id = x.id := by simpa using hgid
    rw [← this]
    exact List.mem_map_of_mem _ hg
  · intro h
    obtain ⟨c, hc, rfl⟩ := List.mem_map.mp h
    have hafter : c.id ∈ (stateCards.foldl addMissingCard
        (cards.filter (fun c => (stateCards.map (fun x => x.id)).contains c.id))).map
        (fun x => x.id) :=
      addMissingCard_foldl_covers stateCards _ c hc
    obtain ⟨x, hx, hxid⟩ := List.mem_map.mp hafter
    rw [← hxid]
    apply List.mem_map_of_mem
    apply List.mem_filter.mpr
    refine ⟨hx, ?_⟩
    apply List.any_eq_true.mpr
    exact ⟨c, hc, by simp [hxid]⟩

/-- C7 witness: a stale card (id 5) is removed and the new board's ids are
exactly those of the state. -/
theorem C7_scene_card_sync_witness :
    ((5 : Nat) ∈ (updateSceneCards true
        [⟨5, some "X", false, false⟩, ⟨0, some "A", true, false⟩]
        [⟨0, some "A", true, false⟩, ⟨1, some "B", false, false⟩]).map
        (fun c => c.id) ↔
      (5 : Nat) ∈ ([⟨0, some "A", true, false⟩, ⟨1, some "B", false, false⟩] :
        List Card).map (fun c => c.id)) ∧
    ((1 : Nat) ∈ (updateSceneCards true
        [⟨5, some "X", false, false⟩, ⟨0, some "A", true, false⟩]
        [⟨0, some "A", true, false⟩, ⟨1, some "B", false, false⟩]).map
        (fun c => c.id) ↔
      (1 : Nat) ∈ ([⟨0, some "A", true, false⟩, ⟨1, some "B", false, false⟩] :
        List Card).map (fun c => c.id)) :=
  ⟨C7_scene_card_sync [⟨5, some "X", false, false⟩, ⟨0, some "A", true, false⟩]
      [⟨0, some "A", true, false⟩, ⟨1, some "B", false, false⟩] 5,
    C7_scene_card_sync [⟨5, some "X", false, false⟩, ⟨0, some "A", true, false⟩]
      [⟨0, some "A", true, false⟩, ⟨1, some "B", false, false⟩] 1⟩

/-- A `mismatch` outcome of the FLIP transition leaves players and the active
player index untouched, moves the game to `resolving`, and records the newly
flipped card after the previously flipped ones. -/
theorem flipCard_mismatch_fields (g : SrvGame) (requester cardId : Nat) (g1 : SrvGame)
    (h : flipCard g requester cardId = FlipResult.mismatch g1) :
    g1.players = g.players ∧ g1.activePlayerIndex = g.activePlayerIndex ∧
    g1.status = "resolving" ∧ g1.flippedCardIds = g.flippedCardIds ++ [cardId] := by
  unfold flipCard at h
  split at h
  · simp at h
  split at h
  · simp at h
  split at h
  · simp at h
  split at h
  · simp at h
  split at h
  · simp at h
  split at h
  · simp at h
  split at h
  · simp at h
  next a b heq =>
    simp only [] at h
    split at h
    next c1 c2 hf1 hf2 =>
      split at h
      · split at h
        · simp at h
        · simp at h
      · injection h with hg1
        subst hg1
        exact ⟨rfl, rfl, rfl, heq.symm⟩
    all_goals simp at h
  next => simp at h

/-- C3: whenever a flip reveals a mismatched second card, the delayed
no-match resolution puts both revealed cards back face down, empties
`flippedCardIds`, returns to `playing`, and advances the active player index
by exactly one modulo the player count. -/
theorem C3_no_match_resolution (g : SrvGame) (requester cardId : Nat) (g1 : SrvGame)
    (h : flipCard g requester cardId = FlipResult.mismatch g1) :
    (∀ c ∈ (resolveNoMatch g1).cards, c.id ∈ g1.flippedCardIds → c.isFaceUp = false) ∧
    (resolveNoMatch g1).flippedCardIds = [] ∧
    (resolveNoMatch g1).status = "playing" ∧
    (resolveNoMatch g1).activePlayerIndex = (g.activePlayerIndex + 1) % g.players.length := by
  obtain ⟨hp, ha, -, -⟩ := flipCard_mismatch_fields g requester cardId g1 h
  refine ⟨?_, rfl, rfl, ?_⟩
  · intro c hc hid
    obtain ⟨c0, hc0, rfl⟩ := List.mem_map.mp hc
    by_cases hb : g1.flippedCardIds.contains c0.id = true
    · rw [if_pos hb]
    · rw [if_neg hb] at hid ⊢
      exact absurd (by simpa using hid) (by simpa using hb)
  · show (g1.activePlayerIndex + 1) % g1.players.length = _
    rw [hp, ha]

/-- C3 witness: a two-player game with one flipped "A" where flipping the "B"
card mismatches; after resolution both cards are face down, the flip set is
empty, and the turn passes to player 1. -/
theorem C3_no_match_resolution_witness :
    (∀ c ∈ (resolveNoMatch ⟨"g1",
        [⟨0, some "A", true, false⟩, ⟨1, some "B", true, false⟩],
        [⟨"red", 0⟩, ⟨"blue", 0⟩], 0, [0, 1], "resolving"⟩).cards,
      c.id ∈ (⟨"g1", [⟨0, some "A", true, false⟩, ⟨1, some "B", true, false⟩],
        [⟨"red", 0⟩, ⟨"blue", 0⟩], 0, [0, 1], "resolving"⟩ : SrvGame).flippedCardIds →
      c.isFaceUp = false) ∧
    (resolveNoMatch ⟨"g1", [⟨0, some "A", true, false⟩, ⟨1, some "B", true, false⟩],
      [⟨"red", 0⟩, ⟨"blue", 0⟩], 0, [0, 1], "resolving"⟩).flippedCardIds = [] ∧
    (resolveNoMatch ⟨"g1", [⟨0, some "A", true, false⟩, ⟨1, some "B", true, false⟩],
      [⟨"red", 0⟩, ⟨"blue", 0⟩], 0, [0, 1], "resolving"⟩).status = "playing" ∧
    (resolveNoMatch ⟨"g1", [⟨0, some "A", true, false⟩, ⟨1, some "B", true, false⟩],
      [⟨"red", 0⟩, ⟨"blue", 0⟩], 0, [0, 1], "resolving"⟩).activePlayerIndex =
      ((⟨"g1", [⟨0, some "A", true, false⟩, ⟨1, some "B", false, false⟩],
        [⟨"red", 0⟩, ⟨"blue", 0⟩], 0, [0], "playing"⟩ : SrvGame).activePlayerIndex + 1) %
      (⟨"g1", [⟨0, some "A", true, false⟩, ⟨1, some "B", false, false⟩],
        [⟨"red", 0⟩, ⟨"blue", 0⟩], 0, [0], "playing"⟩ : SrvGame).players.length :=
  C3_no_match_resolution
    ⟨"g1", [⟨0, some "A", true, false⟩, ⟨1, some "B", false, false⟩],
      [⟨"red", 0⟩, ⟨"blue", 0⟩], 0, [0], "playing"⟩ 0 1
    ⟨"g1", [⟨0, some "A", true, false⟩, ⟨1, some "B", true, false⟩],
      [⟨"red", 0⟩, ⟨"blue", 0⟩], 0, [0, 1], "resolving"⟩ (by decide)

/-- Duplicating every element of a list doubles its length. -/
theorem length_flatMap_pair (l : List String) :
    (l.flatMap (fun x => [x, x])).length = 2 * l.length := by
  induction l with
  | nil => rfl
  | cons a l ih =>
    simp [List.flatMap_cons, ih]
    omega

/-- Duplicating every element of a list doubles every count. -/
theorem count_flatMap_pair (l : List String) (s : String) :
    (l.flatMap (fun x => [x, x])).count s = 2 * l.count s := by
  induction l with
  | nil => rfl
  | cons a l ih =>
    simp [List.flatMap_cons, List.count_append, List.count_cons, ih]
    by_cases h : a = s
    · simp [h]
      omega
    · simp [h]

/-- Duplicating every element of a list preserves membership. -/
theorem mem_flatMap_pair (l : List String) (s : String) :
    s ∈ l.flatMap (fun x => [x, x]) ↔ s ∈ l := by
  rw [List.mem_flatMap]
  constructor
  · rintro ⟨a, ha, hs⟩
    rcases List.mem_cons.mp hs with rfl | hs2
    · exact ha
    · rw [List.mem_singleton] at hs2
      subst hs2
      exact ha
  · intro h
    exact ⟨s, h, by simp⟩

/-- Permutations preserve counts (for any `BEq` instance). -/
theorem perm_count_eq {α : Type} [BEq α] {l1 l2 : List α} (h : l1.Perm l2) (a : α) :
    l1.count a = l2.count a := by
  unfold List.count
  exact h.countP_eq _

/-- Counting a wrapped element in a `some`-mapped list. -/
theorem count_map_some (l : List String) (s : String) :
    (l.map some).count (some s) = l.count s := by
  induction l with
  | nil => rfl
  | cons a l ih =>
    rw [List.map_cons, List.count_cons, List.count_cons, ih]
    simp [beq_iff_eq]

/-- In a duplicate-free list every member is counted exactly once. -/
theorem count_eq_one_of_nodup_mem {l : List String} {s : String} (hn : l.Nodup)
    (hm : s ∈ l) : l.count s = 1 := by
  induction l with
  | nil => cases hm
  | cons a l ih =>
    rw [List.count_cons]
    rcases List.mem_cons.mp hm with rfl | h
    · have h0 : l.count s = 0 := by
        rw [List.count_eq_zero]
        exact (List.nodup_cons.mp hn).1
      simp [h0]
    · rw [ih (List.nodup_cons.mp hn).2 h]
      have hne : ¬ a = s := fun he => (List.nodup_cons.mp hn).1 (he.symm ▸ h)
      simp [hne]

/-- Mapping the value field over the freshly built board lists the symbols in
order, wrapped in `some`. -/
theorem base_map_value (lv : List String) :
    ((lv.enum.map (fun q => ({ id := q.1, value := some q.2, isFaceUp := false, isMatched := false } : Card))).map (fun c => c.value)) = lv.map some := by
  conv_rhs => rw [← List.enum_map_snd lv, List.map_map]
  rw [List.map_map]
  rfl

/-- Mapping the id field over the freshly built board yields `0, 1, 2, ...`. -/
theorem base_map_id (lv : List String) :
    ((lv.enum.map (fun q => ({ id := q.1, value := some q.2, isFaceUp := false, isMatched := false } : Card))).map (fun c => c.id)) = List.range lv.length := by
  rw [List.map_map, ← List.enum_map_fst lv]
  rfl

/-- C4: for `pairCount ≤ |symbolSet|` with distinct symbols and a
permutation-valid shuffle, the generated board has exactly `2 * pairCount`
cards, every value occurring on the board occurs on exactly two cards, all
card ids are distinct, and every card starts face down and unmatched. -/
theorem C4_generate_shape (shuffle : List Card → List Card) (pairCount : Nat)
    (symbolSet : List String) (board : List Card)
    (hshuffle : ∀ l, (shuffle l).Perm l)
    (hnodup : symbolSet.Nodup)
    (hcount : pairCount ≤ symbolSet.length)
    (hgen : generate shuffle pairCount symbolSet = Except.ok board) :
    board.length = 2 * pairCount ∧
    (∀ v ∈ board.map (fun c => c.value), (board.map (fun c => c.value)).count v = 2) ∧
    (board.map (fun c => c.id)).Nodup ∧
    (∀ c ∈ board, c.isFaceUp = false ∧ c.isMatched = false) := by
  unfold generate at hgen
  rw [if_pos hcount] at hgen
  simp only [] at hgen
  injection hgen with hboard
  subst hboard
  have hsymnodup : (symbolSet.take pairCount).Nodup :=
    hnodup.sublist (List.take_sublist pairCount symbolSet)
  have hsymlen : (symbolSet.take pairCount).length = pairCount := by
    rw [List.length_take]
    exact Nat.min_eq_left hcount
  have hperm := hshuffle
    (((symbolSet.take pairCount).flatMap (fun s => [s, s])).enum.map
      (fun q => ({ id := q.1, value := some q.2, isFaceUp := false, isMatched := false } : Card)))
  refine ⟨?_, ?_, ?_, ?_⟩
  · rw [hperm.length_eq, List.length_map, List.enum_length, length_flatMap_pair, hsymlen]
  · intro v hv
    have hpm := hperm.map (fun c => c.value)
    rw [hpm.mem_iff, base_map_value] at hv
    obtain ⟨s, hs, hsv⟩ := List.mem_map.mp hv
    have hsmem : s ∈ symbolSet.take pairCount := (mem_flatMap_pair _ s).mp hs
    rw [perm_count_eq hpm v, base_map_value, ← hsv, count_map_some,
      count_flatMap_pair, count_eq_one_of_nodup_mem hsymnodup hsmem]
  · have hpm := hperm.map (fun c => c.id)
    rw [hpm.nodup_iff, base_map_id]
    exact List.nodup_range _
  · intro c hc
    rw [hperm.mem_iff] at hc
    obtain ⟨q, -, rfl⟩ := List.mem_map.mp hc
    exact ⟨rfl, rfl⟩

/-- C4 witness: the identity shuffle on two pairs drawn from three distinct
symbols yields the four-card board with values A, A, B, B and ids 0..3. -/
theorem C4_generate_shape_witness :
    ([⟨0, some "A", false, false⟩, ⟨1, some "A", false, false⟩,
      ⟨2, some "B", false, false⟩, ⟨3, some "B", false, false⟩] : List Card).length =
      2 * 2 ∧
    (∀ v ∈ ([⟨0, some "A", false, false⟩, ⟨1, some "A", false, false⟩,
        ⟨2, some "B", false, false⟩, ⟨3, some "B", false, false⟩] : List Card).map
        (fun c => c.value),
      (([⟨0, some "A", false, false⟩, ⟨1, some "A", false, false⟩,
        ⟨2, some "B", false, false⟩, ⟨3, some "B", false, false⟩] : List Card).map
        (fun c => c.value)).count v = 2) ∧
    (([⟨0, some "A", false, false⟩, ⟨1, some "A", false, false⟩,
      ⟨2, some "B", false, false⟩, ⟨3, some "B", false, false⟩] : List Card).map
      (fun c => c.id)).Nodup ∧
    (∀ c ∈ ([⟨0, some "A", false, false⟩, ⟨1, some "A", false, false⟩,
        ⟨2, some "B", false, false⟩, ⟨3, some "B", false, false⟩] : List Card),
      c.isFaceUp = false ∧ c.isMatched = false) :=
  C4_generate_shape (fun l => l) 2 ["A", "B", "C"]
    [⟨0, some "A", false, false⟩, ⟨1, some "A", false, false⟩,
      ⟨2, some "B", false, false⟩, ⟨3, some "B", false, false⟩]
    (fun l => List.Perm.refl l) (by decide) (by decide) rfl
